import Mathlib

/-!
Verification development for the clawpost worker: a shallow embedding of the
message store (threads, messages, attachments, approved senders, blob store)
and of the operations reachable from the REST routes and the MCP tools
(inbound ingestion, send, reply, sender approval, reads and search), together
with theorems about the trust-gating, threading and bookkeeping behaviour.

Modelling conventions:
- D1 tables become Lean lists of rows; an SQL update becomes a map over the
  list, an insert an append, a select a filter or find.
- Timestamps are naturals; fresh UUIDs are passed in as explicit parameters.
- JavaScript string truthiness (empty string is falsy) is modelled by
  strTruthy; base64 encoding and decoding of attachment bytes is modelled as
  the identity on an abstract byte-string, so an R2 blob value is a String
  and a byte length is a String length.
- The external email provider is an oracle argument of type
  Except String String (error, or the provider-assigned message id); the
  no-provider configuration error still arises inside getProvider.
- Fallible code returns Except; an operation that can throw after partial
  writes is written in state-passing style so that a throw at a given point
  returns exactly the writes made before that point.
-/

namespace Clawpost

/-- Message direction column, direction IN (inbound, outbound). -/
inductive Direction where
  | inbound
  | outbound
deriving DecidableEq, Repr

instance : BEq Direction := ⟨fun a b => decide (a = b)⟩

/-- Row of the threads table. -/
structure Thread where
  id : String
  subject : String
  last_message_at : Nat
  message_count : Nat
  created_at : Nat
deriving DecidableEq, Repr

/-- Row of the messages table (with the approved, status and archived
columns added by the later migrations; inbound ingestion leaves status null
and archived at its default 0). Serialized auxiliary headers are modelled as
the list of key-value pairs instead of their JSON text. -/
structure Message where
  id : String
  thread_id : String
  message_id : Option String
  in_reply_to : Option String
  «from» : String
  «to» : String
  cc : Option String
  bcc : Option String
  subject : String
  body_text : Option String
  body_html : Option String
  headers : Option (List (String × String))
  direction : Direction
  approved : Nat
  status : Option String
  archived : Nat
  created_at : Nat
deriving DecidableEq, Repr

/-- Row of the attachments table. -/
structure Attachment where
  id : String
  message_id : String
  filename : Option String
  content_type : Option String
  size : Option Nat
  r2_key : String
  created_at : Nat
deriving DecidableEq, Repr

/-- Row of the approved_senders table. -/
structure ApprovedSender where
  email : String
  name : Option String
  created_at : Nat
deriving DecidableEq, Repr

/-- The persistent state: the four D1 tables plus the R2 blob store
(key-value pairs, the value being the abstract byte string). -/
structure Store where
  threads : List Thread
  messages : List Message
  attachments : List Attachment
  approved_senders : List ApprovedSender
  blobs : List (String × String)
deriving DecidableEq, Repr

/-- The empty store. -/
def Store.empty : Store := ⟨[], [], [], [], []⟩

/-- JavaScript truthiness of an optional string: null, undefined and the
empty string are falsy. -/
def strTruthy : Option String → Bool
  | none => false
  | some s => s ≠ ""

/-- Structural prefix test on character lists (the pattern first). -/
def prefixOf : List Char → List Char → Bool
  | [], _ => true
  | _ :: _, [] => false
  | a :: as, b :: bs => a == b && prefixOf as bs

/-- Structural substring test: does pat occur inside the second list. -/
def infixOf (pat : List Char) : List Char → Bool
  | [] => pat.isEmpty
  | c :: rest => prefixOf pat (c :: rest) || infixOf pat rest

/-- JavaScript String.toLowerCase, written structurally on the character
list. -/
def jsToLower (s : String) : String := ⟨s.data.map Char.toLower⟩

/-- JavaScript String.startsWith, written structurally. -/
def strStartsWith (s pre : String) : Bool := prefixOf pre.data s.data

/-- Substring containment, written structurally. -/
def strContains (s pat : String) : Bool := infixOf pat.data s.data

/-- Maximal non-whitespace runs of a character list (left to right, with an
accumulator for the current run). -/
def runsAux : List Char → List Char → List (List Char)
  | [], cur => if cur.isEmpty then [] else [cur.reverse]
  | c :: rest, cur =>
    if c.isWhitespace then
      if cur.isEmpty then runsAux rest [] else cur.reverse :: runsAux rest []
    else runsAux rest (c :: cur)

/-- R2 get: first blob stored under the key, if any. -/
def blobGet (st : Store) (key : String) : Option String :=
  (st.blobs.find? (fun b => b.1 == key)).map (fun b => b.2)

/-- JavaScript String.split on a whitespace run: the maximal non-whitespace
tokens, with an empty token kept at the start (end) when the string starts
(ends) with whitespace, and a lone empty token for the empty string. -/
def jsSplitWs (s : String) : List String :=
  if s.data.isEmpty then [""]
  else
    let toks := (runsAux s.data []).map (fun l => String.mk l)
    let withLead :=
      if (s.data.head?.map Char.isWhitespace).getD false then "" :: toks else toks
    if (s.data.getLast?.map Char.isWhitespace).getD false then withLead ++ [""]
    else withLead

/-- The references value handed over by the mail parser: absent, a string, or
some other shape (an unparsed or malformed header). -/
inductive RefsField where
  | absent
  | str (s : String)
  | nonString
deriving DecidableEq, Repr

/-- JavaScript truthiness of the references value (a non-string object is
truthy, the empty string is not). -/
def RefsField.truthy : RefsField → Bool
  | .absent => false
  | .str s => s ≠ ""
  | .nonString => true

/-- The list of reference message-ids the inbound handler walks: a string is
split on whitespace, anything else degrades to the empty list. -/
def RefsField.tokens : RefsField → List String
  | .str s => jsSplitWs s
  | _ => []

-- ---------------------------------------------------------------------------
-- Provider configuration (mail.ts: getProvider / getSenderConfig)
-- ---------------------------------------------------------------------------

/-- The two outbound transports. -/
inductive Provider where
  | cloudflare
  | resend
deriving DecidableEq, Repr

instance : BEq Provider := ⟨fun a b => decide (a = b)⟩

/-- Worker environment bindings consulted by the outbound composer. The
EMAIL field records whether the Cloudflare Email Service binding is present. -/
structure Env where
  EMAIL_PROVIDER : Option String
  EMAIL : Bool
  RESEND_API_KEY : Option String
  FROM_EMAIL : String
  FROM_NAME : String
  REPLY_TO_EMAIL : String
  RESEND_FROM_EMAIL : Option String
  RESEND_FROM_NAME : Option String
  RESEND_REPLY_TO_EMAIL : Option String
deriving DecidableEq, Repr

/-- mail.ts getProvider: explicit configuration wins, else auto-detect
preferring the Cloudflare binding, else a configuration error. -/
def getProvider (env : Env) : Except String Provider :=
  if env.EMAIL_PROVIDER == some ("cloudflare") then .ok (Provider.cloudflare)
  else if env.EMAIL_PROVIDER == some ("resend") then .ok (Provider.resend)
  else if env.EMAIL then .ok (Provider.cloudflare)
  else if env.RESEND_API_KEY.isSome then .ok (Provider.resend)
  else .error ("No email provider configured. Set EMAIL_PROVIDER or provide an EMAIL binding / RESEND_API_KEY.")

/-- Sender addressing resolved for the active provider. -/
structure SenderConfig where
  fromEmail : String
  fromName : String
  replyTo : String
  «from» : String
deriving DecidableEq, Repr

/-- mail.ts getSenderConfig: resolve from address, display name and reply-to,
with Resend-specific overrides when the active provider is Resend. -/
def getSenderConfig (env : Env) : Except String SenderConfig :=
  match getProvider env with
  | .error e => .error e
  | .ok provider =>
    let fromEmail :=
      if provider == Provider.resend && strTruthy env.RESEND_FROM_EMAIL then
        env.RESEND_FROM_EMAIL.getD ("")
      else env.FROM_EMAIL
    let fromName :=
      if provider == Provider.resend && strTruthy env.RESEND_FROM_NAME then
        env.RESEND_FROM_NAME.getD ("")
      else env.FROM_NAME
    let replyTo :=
      if provider == Provider.resend && strTruthy env.RESEND_REPLY_TO_EMAIL then
        env.RESEND_REPLY_TO_EMAIL.getD ("")
      else env.REPLY_TO_EMAIL
    .ok { fromEmail := fromEmail, fromName := fromName, replyTo := replyTo,
          «from» := fromName ++ " <" ++ fromEmail ++ ">" }

-- ---------------------------------------------------------------------------
-- Attachment resolution (mail.ts: resolveAttachments)
-- ---------------------------------------------------------------------------

/-- One attachment input to send or reply: inline base64 content, a filename,
or a reference to an existing attachment row. -/
structure AttachmentInput where
  content : Option String
  filename : String
  attachment_id : Option String
deriving DecidableEq, Repr

/-- A resolved attachment ready for the provider. -/
structure ResolvedAttachment where
  content : String
  filename : String
deriving DecidableEq, Repr

/-- mail.ts resolveAttachments: an entry referencing an existing attachment is
fetched from R2 through its metadata row (missing metadata or a missing blob
is an error), an inline entry is passed through, and an entry with neither a
truthy attachment_id nor truthy content is skipped. -/
def resolveAttachments (st : Store) : List AttachmentInput → Except String (List ResolvedAttachment)
  | [] => .ok []
  | att :: rest =>
    if strTruthy att.attachment_id then
      match st.attachments.find? (fun x => x.id == att.attachment_id.getD ("")) with
      | none => .error ("Attachment " ++ att.attachment_id.getD ("") ++ " not found")
      | some meta =>
        match blobGet st meta.r2_key with
        | none => .error ("R2 object " ++ meta.r2_key ++ " not found")
        | some content =>
          match resolveAttachments st rest with
          | .error e => .error e
          | .ok tl => .ok ({ content := content, filename := meta.filename.getD att.filename } :: tl)
    else if strTruthy att.content then
      match resolveAttachments st rest with
      | .error e => .error e
      | .ok tl => .ok ({ content := att.content.getD (""), filename := att.filename } :: tl)
    else resolveAttachments st rest

-- ---------------------------------------------------------------------------
-- Inbound ingestion (email.ts: handleInboundEmail)
-- ---------------------------------------------------------------------------

/-- The single-statement thread bookkeeping update shared by the inbound
handler, send and reply: update threads set last_message_at = now,
message_count = message_count + 1 where id = tid. -/
def bumpThread (tid : String) (now : Nat) (threads : List Thread) : List Thread :=
  threads.map (fun t =>
    if t.id == tid then
      { t with last_message_at := now, message_count := t.message_count + 1 }
    else t)

/-- The threading lookup of the inbound handler: a truthy In-Reply-To is
looked up against messages.message_id first; when that yields nothing and the
references value is truthy, its whitespace-split entries are walked in order
and the thread of the first message whose message_id matches is taken. -/
def resolveThreadId (st : Store) (inReplyTo : Option String) (references : RefsField) : Option String :=
  let byInReplyTo : Option String :=
    if strTruthy inReplyTo then
      (st.messages.find? (fun m => m.message_id == inReplyTo)).map (fun m => m.thread_id)
    else none
  match byInReplyTo with
  | some tid => some tid
  | none =>
    if references.truthy then
      references.tokens.findSome? (fun ref =>
        (st.messages.find? (fun m => m.message_id == some ref)).map (fun m => m.thread_id))
    else none

/-- The threading-resolution contract, written from the wording of the spec
(section 4.1): (a) if inReplyTo is present, any message whose message_id
equals it decides the thread; (b) otherwise the references list is walked in
order, oldest to newest, and the thread of the first message whose message_id
matches an entry is taken; (c) otherwise there is no existing thread. This
definition exists to be compared with resolveThreadId. -/
def specResolveThread (st : Store) (inReplyTo : Option String) (references : List String) : Option String :=
  let walk : Option String :=
    references.findSome? (fun ref =>
      (st.messages.find? (fun m => m.message_id == some ref)).map (fun m => m.thread_id))
  match inReplyTo with
  | some r =>
    match st.messages.find? (fun m => m.message_id == some r) with
    | some m => some m.thread_id
    | none => walk
  | none => walk

/-- Input normalization bridging the code to the spec contract: the code
treats an empty In-Reply-To header as absent. -/
def normInReplyTo : Option String → Option String
  | some s => if s = "" then none else some s
  | none => none

/-- Input normalization bridging the code to the spec contract: the spec
takes the references as a list of ids; a missing, empty or malformed header
degrades to the empty list. -/
def codeRefsList : RefsField → List String
  | .str s => if s = "" then [] else jsSplitWs s
  | _ => []

/-- One parsed inbound attachment (filename, MIME type, byte content); the
per-attachment UUID is passed in. -/
structure ParsedAttachment where
  attId : String
  filename : Option String
  mimeType : Option String
  content : String
deriving DecidableEq, Repr

/-- A parsed inbound email as the handler consumes it, together with the
UUIDs the handler would draw: msgId for the message row and newThreadId for
the thread row created when no existing thread matches. fromAddr is the
parsed from address before lowercasing. -/
structure InboundEmail where
  msgId : String
  newThreadId : String
  fromAddr : String
  «to» : String
  cc : Option String
  subject : Option String
  rfc822MessageId : Option String
  inReplyTo : Option String
  references : RefsField
  headers : List (String × String)
  bodyText : Option String
  bodyHtml : Option String
  attachments : List ParsedAttachment
deriving DecidableEq, Repr

/-- Store the parsed inbound attachments: each blob is written to R2 under
msgId/attId/filename and a metadata row is inserted. -/
def storeInboundAttachments (msgId : String) (now : Nat) : List ParsedAttachment → Store → Store
  | [], st => st
  | a :: rest, st =>
    let r2Key := msgId ++ "/" ++ a.attId ++ "/" ++ a.filename.getD ("attachment")
    let row : Attachment :=
      { id := a.attId, message_id := msgId, filename := a.filename,
        content_type := a.mimeType, size := some a.content.length,
        r2_key := r2Key, created_at := now }
    storeInboundAttachments msgId now rest
      { st with blobs := st.blobs ++ [(r2Key, a.content)],
                attachments := st.attachments ++ [row] }

/-- The message row the inbound handler inserts (the VALUES of its insert
statement), given the resolved thread and the frozen approval flag. -/
def inboundMessageRow (e : InboundEmail) (now : Nat) (threadId : String)
    (approved : Nat) : Message :=
  { id := e.msgId, thread_id := threadId, message_id := e.rfc822MessageId,
    in_reply_to := e.inReplyTo, «from» := jsToLower e.fromAddr, «to» := e.«to»,
    cc := e.cc, bcc := none, subject := e.subject.getD ("(no subject)"),
    body_text := e.bodyText, body_html := e.bodyHtml, headers := some e.headers,
    direction := Direction.inbound, approved := approved, status := none,
    archived := 0, created_at := now }

/-- email.ts handleInboundEmail: lowercase the sender, freeze the approval
flag from the allowlist, resolve the thread by In-Reply-To then References,
bump the matched thread or create a new one, insert the message row, then
store the attachments. -/
def handleInboundEmail (e : InboundEmail) (now : Nat) (st : Store) : Store :=
  let «from» := jsToLower e.fromAddr
  let subject := e.subject.getD ("(no subject)")
  let approved : Nat :=
    if st.approved_senders.any (fun s => s.email == «from») then 1 else 0
  let tid? := resolveThreadId st e.inReplyTo e.references
  let threadId := tid?.getD e.newThreadId
  let threads :=
    match tid? with
    | some tid => bumpThread tid now st.threads
    | none =>
      st.threads ++ [{ id := e.newThreadId, subject := subject,
                       last_message_at := now, message_count := 1, created_at := now }]
  let msg := inboundMessageRow e now threadId approved
  storeInboundAttachments e.msgId now e.attachments
    { st with threads := threads, messages := st.messages ++ [msg] }

-- ---------------------------------------------------------------------------
-- Outbound composer (mail.ts: sendEmail / replyToMessage)
-- ---------------------------------------------------------------------------

/-- Parameters of sendEmail. A single recipient string is modelled as a
one-element list; cc and bcc keep their optional single-or-list shape as an
optional list. -/
structure SendEmailParams where
  «to» : List String
  subject : String
  body : String
  cc : Option (List String)
  bcc : Option (List String)
  replyTo : Option String
  inReplyTo : Option String
  references : Option String
  threadId : Option String
  attachments : List AttachmentInput
deriving DecidableEq, Repr

/-- Result of a successful sendEmail. -/
structure SendResult where
  messageId : String
  dbId : String
  threadId : String
deriving DecidableEq, Repr

/-- Result of a successful replyToMessage. -/
structure ReplyResult where
  messageId : String
  dbId : String
deriving DecidableEq, Repr

/-- The threading headers sendEmail attaches: In-Reply-To and References from
its parameters, each included when truthy. -/
def sendHeaders (p : SendEmailParams) : List (String × String) :=
  (if strTruthy p.inReplyTo then [("In-Reply-To", p.inReplyTo.getD (""))] else []) ++
  (if strTruthy p.references then [("References", p.references.getD (""))] else [])

/-- Store the resolved outbound attachments after a successful dispatch: for
each resolved attachment a fresh UUID is drawn from attIds, the decoded bytes
are written to R2 under dbId/attId/filename, and a metadata row with a null
content type and the byte length is inserted. -/
def storeOutboundAttachments (dbId : String) (now : Nat) : List ResolvedAttachment → List String → Store → Store
  | [], _, st => st
  | _, [], st => st
  | a :: rest, attId :: ids, st =>
    let r2Key := dbId ++ "/" ++ attId ++ "/" ++ a.filename
    let row : Attachment :=
      { id := attId, message_id := dbId, filename := some a.filename,
        content_type := none, size := some a.content.length,
        r2_key := r2Key, created_at := now }
    storeOutboundAttachments dbId now rest ids
      { st with blobs := st.blobs ++ [(r2Key, a.content)],
                attachments := st.attachments ++ [row] }

/-- The outbound message row sendEmail inserts (the VALUES of its insert
statement): born approved with status sent, message_id null when the provider
returned an empty id, headers serialized only when inReplyTo was set. -/
def sendMessageRow (sender : SenderConfig) (p : SendEmailParams)
    (dbId threadId providerMessageId : String) (now : Nat) : Message :=
  { id := dbId, thread_id := threadId,
    message_id := if providerMessageId == "" then none else some providerMessageId,
    in_reply_to := p.inReplyTo, «from» := sender.fromEmail,
    «to» := String.intercalate ", " p.«to»,
    cc := p.cc.map (fun l => String.intercalate ", " l),
    bcc := p.bcc.map (fun l => String.intercalate ", " l), subject := p.subject,
    body_text := some p.body, body_html := none,
    headers := if strTruthy p.inReplyTo then some (sendHeaders p) else none,
    direction := Direction.outbound, approved := 1, status := some ("sent"),
    archived := 0, created_at := now }

/-- mail.ts sendEmail. The provider dispatch is the oracle argument; every
failure (attachment resolution, missing provider configuration, dispatch)
returns the store exactly as it was at the point of the throw, which is
before any write. On success the thread is joined (bumped) or created, the
outbound message row is inserted born approved with status sent, and the
attachments are persisted. -/
def sendEmail (env : Env) (dispatch : Except String String) (p : SendEmailParams)
    (dbId freshThreadId : String) (attIds : List String) (now : Nat) (st : Store) :
    Store × Except String SendResult :=
  match resolveAttachments st p.attachments with
  | .error e => (st, .error e)
  | .ok resolved =>
    match getSenderConfig env with
    | .error e => (st, .error e)
    | .ok sender =>
      match dispatch with
      | .error e => (st, .error e)
      | .ok providerMessageId =>
        let threadId := p.threadId.getD freshThreadId
        let threads :=
          match p.threadId with
          | some tid => bumpThread tid now st.threads
          | none =>
            st.threads ++ [{ id := freshThreadId, subject := p.subject,
                             last_message_at := now, message_count := 1, created_at := now }]
        let msg := sendMessageRow sender p dbId threadId providerMessageId now
        let st1 := { st with threads := threads, messages := st.messages ++ [msg] }
        (storeOutboundAttachments dbId now resolved attIds st1,
         .ok { messageId := providerMessageId, dbId := dbId, threadId := threadId })

/-- The threading headers replyToMessage derives from the original message
(mail.ts lines 353-359): In-Reply-To is the original message_id; References
is the original in_reply_to extended with the original message_id when both
are truthy, just the message_id when only it is, and absent when the original
carries no message_id. -/
def replyThreadingHeaders (original : Message) : Option String × Option String :=
  let inReplyTo := original.message_id
  let references : Option String :=
    if strTruthy original.message_id then
      if strTruthy original.in_reply_to then
        some (original.in_reply_to.getD ("") ++ " " ++ original.message_id.getD (""))
      else original.message_id
    else none
  (inReplyTo, references)

/-- The reply header record handed to the provider and serialized onto the
stored reply: each of the two derived headers, when truthy. -/
def replyHeadersList (original : Message) : List (String × String) :=
  (if strTruthy (replyThreadingHeaders original).1 then
    [("In-Reply-To", (replyThreadingHeaders original).1.getD (""))] else []) ++
  (if strTruthy (replyThreadingHeaders original).2 then
    [("References", (replyThreadingHeaders original).2.getD (""))] else [])

/-- The References value the spec prescribes for a reply: the References
chain the original itself carried (its References header, split on
whitespace), extended with the original message_id. This definition follows
the wording of the spec and exists to be compared with
replyThreadingHeaders. -/
def specReplyReferences (original : Message) : Option String :=
  match original.message_id with
  | none => none
  | some mid =>
    let chain : List String :=
      match original.headers with
      | none => []
      | some hs =>
        match (hs.find? (fun h => h.1 == "References")).map (fun h => h.2) with
        | none => []
        | some v => (runsAux v.data []).map (fun l => String.mk l)
    some (String.intercalate " " (chain ++ [mid]))

/-- The outbound reply row replyToMessage inserts (the VALUES of its insert
statement): joined to the original thread, recipient derived from the
original direction, subject prefixed Re: unless already so. -/
def replyMessageRow (sender : SenderConfig) (original : Message)
    (dbId providerMessageId body : String) (now : Nat) : Message :=
  { id := dbId, thread_id := original.thread_id,
    message_id := if providerMessageId == "" then none else some providerMessageId,
    in_reply_to := (replyThreadingHeaders original).1,
    «from» := sender.fromEmail,
    «to» := (if original.direction == Direction.inbound then original.«from»
             else original.«to»),
    cc := none, bcc := none,
    subject := (if strStartsWith original.subject ("Re:") then original.subject
                else "Re: " ++ original.subject),
    body_text := some body, body_html := none,
    headers := (if (replyHeadersList original).isEmpty then none
                else some (replyHeadersList original)),
    direction := Direction.outbound, approved := 1, status := some ("sent"),
    archived := 0, created_at := now }

/-- mail.ts replyToMessage: load the original by database id (must exist),
derive the threading headers, recipient and subject from it, dispatch, and
only then bump the original thread, insert the outbound reply row and persist
the attachments. Every failure returns the store unchanged. -/
def replyToMessage (env : Env) (dispatch : Except String String) (messageId : String)
    (body : String) (atts : List AttachmentInput) (dbId : String) (attIds : List String)
    (now : Nat) (st : Store) : Store × Except String ReplyResult :=
  match st.messages.find? (fun m => m.id == messageId) with
  | none => (st, .error ("Message " ++ messageId ++ " not found"))
  | some original =>
    match resolveAttachments st atts with
    | .error e => (st, .error e)
    | .ok resolved =>
      match getSenderConfig env with
      | .error e => (st, .error e)
      | .ok sender =>
        match dispatch with
        | .error e => (st, .error e)
        | .ok providerMessageId =>
          let threads := bumpThread original.thread_id now st.threads
          let msg := replyMessageRow sender original dbId providerMessageId body now
          let st1 := { st with threads := threads, messages := st.messages ++ [msg] }
          (storeOutboundAttachments dbId now resolved attIds st1,
           .ok { messageId := providerMessageId, dbId := dbId })

-- ---------------------------------------------------------------------------
-- Sender approval (api.ts POST /api/approved-senders, mcp.ts approve_sender)
-- ---------------------------------------------------------------------------

/-- The approve-sender operation shared by the REST route and the MCP tool:
normalize the email to lowercase, upsert the allowlist row (an existing row
keeps its created_at and has its name overwritten), then flip approved to 1
on every message from that sender still at 0, reporting how many rows the
update touched. -/
def approveSender (email : String) (name : Option String) (now : Nat) (st : Store) : Store × Nat :=
  let normalized := jsToLower email
  let senders :=
    if st.approved_senders.any (fun s => s.email == normalized) then
      st.approved_senders.map (fun s =>
        if s.email == normalized then { s with name := name } else s)
    else
      st.approved_senders ++ [{ email := normalized, name := name, created_at := now }]
  let count := (st.messages.filter (fun m => m.«from» == normalized && m.approved == 0)).length
  let messages := st.messages.map (fun m =>
    if m.«from» == normalized && m.approved == 0 then { m with approved := 1 } else m)
  ({ st with approved_senders := senders, messages := messages }, count)

-- ---------------------------------------------------------------------------
-- Read paths (api.ts routes and mcp.ts tools)
-- ---------------------------------------------------------------------------

/-- Insert a message into a list kept sorted by created_at descending. -/
def insertByCreatedDesc (m : Message) : List Message → List Message
  | [] => [m]
  | x :: xs =>
    if x.created_at ≤ m.created_at then m :: x :: xs
    else x :: insertByCreatedDesc m xs

/-- Order by created_at descending (the order every listing route uses). -/
def sortByCreatedDesc : List Message → List Message
  | [] => []
  | x :: xs => insertByCreatedDesc x (sortByCreatedDesc xs)

/-- SQL LIKE with wildcards on both sides, abstracted to substring
containment (an empty pattern matches everything). -/
def likeContains (s pat : String) : Bool := strContains s pat

/-- The subject-or-body match of the search queries; a null body never
matches. -/
def matchesQuery (m : Message) (q : String) : Bool :=
  likeContains m.subject q ||
    (match m.body_text with
     | some b => likeContains b q
     | none => false)

/-- GET /api/messages: approved messages only, optionally filtered by
direction and sender, ordered by recency, paginated. -/
def apiListMessages (st : Store) (limit offset : Nat) (direction : Option Direction)
    (sender : Option String) : List Message :=
  let rows := st.messages.filter (fun m =>
    m.approved == 1 &&
    (match direction with
     | some d => m.direction == d
     | none => true) &&
    (match sender with
     | some f => m.«from» == f
     | none => true))
  (((sortByCreatedDesc rows).drop offset).take limit)

/-- GET /api/messages/:id: the message when it exists and is approved,
together with its attachment rows; otherwise a 404. -/
def apiGetMessage (st : Store) (id : String) : Option (Message × List Attachment) :=
  match st.messages.find? (fun m => m.id == id && m.approved == 1) with
  | none => none
  | some m => some (m, st.attachments.filter (fun a => a.message_id == id))

/-- Outcome of GET /api/attachments/:id. -/
inductive AttachmentDownload where
  | notFound
  | dataMissing
  | ok (contentType : String) (filename : String) (content : String)
deriving DecidableEq, Repr

/-- GET /api/attachments/:id: look up the attachment row, verify its parent
message exists and is approved (both failures are the same 404), then stream
the blob. -/
def apiGetAttachment (st : Store) (id : String) : AttachmentDownload :=
  match st.attachments.find? (fun a => a.id == id) with
  | none => .notFound
  | some att =>
    match st.messages.find? (fun m => m.id == att.message_id) with
    | none => .notFound
    | some msg =>
      if msg.approved ≠ 1 then .notFound
      else
        match blobGet st att.r2_key with
        | none => .dataMissing
        | some content =>
          .ok (att.content_type.getD ("application/octet-stream"))
             (att.filename.getD ("attachment")) content

/-- GET /api/search: approved messages matching the query in subject or
body, ordered by recency, limited. -/
def apiSearch (st : Store) (q : String) (limit : Nat) : List Message :=
  ((sortByCreatedDesc (st.messages.filter (fun m =>
    m.approved == 1 && matchesQuery m q))).take limit)

/-- Outcome of POST /api/messages/:id/reply. -/
inductive ApiReplyResponse where
  | notFound
  | sendError (e : String)
  | ok (messageId dbId : String)
deriving DecidableEq, Repr

/-- POST /api/messages/:id/reply: the route verifies that the target message
exists and is approved before calling replyToMessage; a missing id and an
unapproved message produce the same Not found response. -/
def apiReplyRoute (env : Env) (dispatch : Except String String) (id : String)
    (body : String) (atts : List AttachmentInput) (dbId : String) (attIds : List String)
    (now : Nat) (st : Store) : Store × ApiReplyResponse :=
  match st.messages.find? (fun m => m.id == id) with
  | none => (st, .notFound)
  | some msg =>
    if msg.approved ≠ 1 then (st, .notFound)
    else
      match replyToMessage env dispatch id body atts dbId attIds now st with
      | (st2, .ok r) => (st2, .ok r.messageId r.dbId)
      | (st2, .error e) => (st2, .sendError e)

/-- MCP list_messages: same gated query as the REST listing. -/
def mcpListMessages (st : Store) (limit offset : Nat) (direction : Option Direction)
    (sender : Option String) : List Message :=
  let rows := st.messages.filter (fun m =>
    m.approved == 1 &&
    (match direction with
     | some d => m.direction == d
     | none => true) &&
    (match sender with
     | some f => m.«from» == f
     | none => true))
  (((sortByCreatedDesc rows).drop offset).take limit)

/-- MCP read_message: the approved message with its attachment metadata, or a
Message not found error. -/
def mcpReadMessage (st : Store) (id : String) : Option (Message × List Attachment) :=
  match st.messages.find? (fun m => m.id == id && m.approved == 1) with
  | none => none
  | some m => some (m, st.attachments.filter (fun a => a.message_id == id))

/-- Outcome of the MCP get_attachment tool. -/
inductive McpAttachmentResult where
  | err (text : String)
  | ok (id : String) (filename : Option String) (contentType : Option String)
      (size : Option Nat) (contentBase64 : String)
deriving DecidableEq, Repr

/-- MCP get_attachment: attachment row, parent approval check (an unapproved
parent reports the same Attachment not found), then the blob re-encoded as
base64. -/
def mcpGetAttachment (st : Store) (id : String) : McpAttachmentResult :=
  match st.attachments.find? (fun a => a.id == id) with
  | none => .err ("Attachment not found")
  | some att =>
    match st.messages.find? (fun m => m.id == att.message_id) with
    | none => .err ("Attachment not found")
    | some msg =>
      if msg.approved ≠ 1 then .err ("Attachment not found")
      else
        match blobGet st att.r2_key with
        | none => .err ("Attachment data not found in R2")
        | some content => .ok att.id att.filename att.content_type att.size content

/-- MCP search_messages: same gated search as the REST route. -/
def mcpSearchMessages (st : Store) (q : String) (limit : Nat) : List Message :=
  ((sortByCreatedDesc (st.messages.filter (fun m =>
    m.approved == 1 && matchesQuery m q))).take limit)

/-- Modelled from the spec: the search subsystem of section 4.3 (the
src/search.ts service with its FTS5 indexed path, LIKE fallback and
includeArchived switch) is not among the sources under src/; the routes here
inline an earlier LIKE-only query without the archival filter. Following the
spec wording: results are always intersected with the visibility predicate
(approved = 1) and, unless includeArchived, exclude archived messages; the
indexed/fallback duality collapses to the one substring matcher since both
stages apply the same filters; ranked most recent first and limited. -/
def searchMessages (st : Store) (q : String) (limit : Nat) (includeArchived : Bool) : List Message :=
  ((sortByCreatedDesc (st.messages.filter (fun m =>
    m.approved == 1 && (includeArchived || m.archived == 0) && matchesQuery m q))).take limit)

-- ---------------------------------------------------------------------------
-- Runs of store-mutating operations (for the thread bookkeeping invariant)
-- ---------------------------------------------------------------------------

/-- One store-mutating operation of a run: an inbound ingestion, a send or a
reply, each carrying its inputs, its provider oracle and its wall-clock
instant. -/
inductive Op where
  | inboundOp (e : InboundEmail) (now : Nat)
  | sendOp (env : Env) (dispatch : Except String String) (p : SendEmailParams)
      (dbId freshThreadId : String) (attIds : List String) (now : Nat)
  | replyOp (env : Env) (dispatch : Except String String) (messageId body : String)
      (atts : List AttachmentInput) (dbId : String) (attIds : List String) (now : Nat)

/-- The wall-clock instant an operation runs at. -/
def Op.time : Op → Nat
  | .inboundOp _ now => now
  | .sendOp _ _ _ _ _ _ now => now
  | .replyOp _ _ _ _ _ _ _ now => now

/-- Apply one operation to the store (a failed send or reply leaves exactly
the writes it made before the throw, which is none). -/
def applyOp (op : Op) (st : Store) : Store :=
  match op with
  | .inboundOp e now => handleInboundEmail e now st
  | .sendOp env dispatch p dbId freshThreadId attIds now =>
    (sendEmail env dispatch p dbId freshThreadId attIds now st).1
  | .replyOp env dispatch messageId body atts dbId attIds now =>
    (replyToMessage env dispatch messageId body atts dbId attIds now st).1

/-- Apply a run of operations in order. -/
def applyOps : List Op → Store → Store
  | [], st => st
  | op :: rest, st => applyOps rest (applyOp op st)

/-- Freshness of the UUIDs an operation may mint for a new thread: fresh
means unused both as a thread id and as a message thread reference. A send
joining an explicit existing thread mints none. -/
def freshFor (op : Op) (st : Store) : Bool :=
  match op with
  | .inboundOp e _ =>
    !(st.threads.any (fun t => t.id == e.newThreadId)) &&
    !(st.messages.any (fun m => m.thread_id == e.newThreadId))
  | .sendOp _ _ p _ freshThreadId _ _ =>
    match p.threadId with
    | some _ => true
    | none =>
      !(st.threads.any (fun t => t.id == freshThreadId)) &&
      !(st.messages.any (fun m => m.thread_id == freshThreadId))
  | .replyOp _ _ _ _ _ _ _ _ => true

/-- A valid run from a clock bound: each operation runs no earlier than the
previous one and mints fresh thread UUIDs. -/
def validRun : Nat → Store → List Op → Bool
  | _, _, [] => true
  | b, st, op :: rest =>
    decide (b ≤ op.time) && freshFor op st && validRun op.time (applyOp op st) rest

/-- The trace of stores a run passes through, the initial store included. -/
def states : Store → List Op → List Store
  | st, [] => [st]
  | st, op :: rest => st :: states (applyOp op st) rest

/-- The clock bound after a run: the time of the last operation, or the
initial bound for the empty run. -/
def endTime : Nat → List Op → Nat
  | b, [] => b
  | _, op :: rest => endTime op.time rest

/-- The thread bookkeeping invariant: every thread row counts exactly the
message rows referencing it. -/
def CountInv (st : Store) : Prop :=
  ∀ t ∈ st.threads,
    t.message_count = (st.messages.filter (fun m => m.thread_id == t.id)).length

/-- All thread timestamps are bounded by the clock. -/
def LmaBound (st : Store) (b : Nat) : Prop :=
  ∀ t ∈ st.threads, t.last_message_at ≤ b

/-- Thread ids are pairwise distinct (the primary key). -/
def TidNodup (st : Store) : Prop :=
  (st.threads.map (fun t => t.id)).Nodup

/-- The combined run invariant. -/
def StoreInv (st : Store) (b : Nat) : Prop :=
  CountInv st ∧ LmaBound st b ∧ TidNodup st

/-- Per-thread monotonicity across one step: a thread row present before and
after (same id) never sees its last_message_at decrease. -/
def StepMono (st st' : Store) : Prop :=
  ∀ t ∈ st.threads, ∀ t' ∈ st'.threads, t.id = t'.id →
    t.last_message_at ≤ t'.last_message_at

-- ---------------------------------------------------------------------------
-- Concrete fixtures used by the witnesses and the counterexample
-- ---------------------------------------------------------------------------

/-- A provider environment with the Cloudflare binding present. -/
def exEnv : Env :=
  { EMAIL_PROVIDER := none, EMAIL := true, RESEND_API_KEY := none,
    FROM_EMAIL := "agent@example.com", FROM_NAME := "Agent",
    REPLY_TO_EMAIL := "agent@example.com", RESEND_FROM_EMAIL := none,
    RESEND_FROM_NAME := none, RESEND_REPLY_TO_EMAIL := none }

/-- An inbound email from an unapproved sender, no threading headers. -/
def exInbound : InboundEmail :=
  { msgId := "m1", newThreadId := "T1", fromAddr := "New@X.com",
    «to» := "agent@example.com", cc := none, subject := some ("Hi"),
    rfc822MessageId := some ("M1"), inReplyTo := none, references := RefsField.absent,
    headers := [("Subject", "Hi")], bodyText := some ("hello"), bodyHtml := none,
    attachments := [] }

/-- A second inbound email replying to the first one. -/
def exInbound2 : InboundEmail :=
  { msgId := "m2", newThreadId := "T2", fromAddr := "new@x.com",
    «to» := "agent@example.com", cc := none, subject := some ("Re: Hi"),
    rfc822MessageId := some ("M2"), inReplyTo := some ("M1"),
    references := RefsField.str ("M1"), headers := [], bodyText := some ("again"),
    bodyHtml := none, attachments := [] }

/-- A send joining the thread created by exInbound. -/
def exSendParams : SendEmailParams :=
  { «to» := ["new@x.com"], subject := "Hi", body := "welcome", cc := none,
    bcc := none, replyTo := none, inReplyTo := none, references := none,
    threadId := some ("T1"), attachments := [] }

/-- The run used by the bookkeeping witness. -/
def exOps : List Op :=
  [Op.inboundOp exInbound 5,
   Op.sendOp exEnv (Except.ok ("pm1")) exSendParams "m3" "T9" [] 7,
   Op.inboundOp exInbound2 9]

/-- An approved, stored message used by the read-path witnesses. -/
def exApprovedMsg : Message :=
  { id := "m10", thread_id := "T10", message_id := some ("MA"),
    in_reply_to := none, «from» := "friend@x.com", «to» := "agent@example.com",
    cc := none, bcc := none, subject := "news", body_text := some ("some news"),
    body_html := none, headers := none, direction := Direction.inbound,
    approved := 1, status := none, archived := 0, created_at := 3 }

/-- An unapproved stored message. -/
def exPendingMsg : Message :=
  { id := "m11", thread_id := "T10", message_id := some ("MB"),
    in_reply_to := none, «from» := "stranger@y.com", «to» := "agent@example.com",
    cc := none, bcc := none, subject := "spam news", body_text := some ("buy"),
    body_html := none, headers := none, direction := Direction.inbound,
    approved := 0, status := none, archived := 0, created_at := 4 }

/-- An approved but archived stored message. -/
def exArchivedMsg : Message :=
  { id := "m12", thread_id := "T10", message_id := some ("MC"),
    in_reply_to := none, «from» := "friend@x.com", «to» := "agent@example.com",
    cc := none, bcc := none, subject := "old news", body_text := some ("stale"),
    body_html := none, headers := none, direction := Direction.inbound,
    approved := 1, status := none, archived := 1, created_at := 2 }

/-- An attachment row owned by the approved message, with its blob. -/
def exAttachmentRow : Attachment :=
  { id := "a1", message_id := "m10", filename := some ("doc.txt"),
    content_type := some ("text/plain"), size := some 4, r2_key := "m10/a1/doc.txt",
    created_at := 3 }

/-- The store the read-path witnesses query. -/
def exStore : Store :=
  { threads := [{ id := "T10", subject := "news", last_message_at := 4,
                  message_count := 3, created_at := 2 }],
    messages := [exApprovedMsg, exPendingMsg, exArchivedMsg],
    attachments := [exAttachmentRow],
    approved_senders := [{ email := "friend@x.com", name := none, created_at := 1 }],
    blobs := [("m10/a1/doc.txt", "data")] }

/-- The original message of the reply counterexample: an inbound message that
itself carried a References chain of two ids (kept in its stored headers) and
whose in_reply_to is only the newer of the two. -/
def exReplyOriginal : Message :=
  { id := "orig1", thread_id := "T20", message_id := some ("M1"),
    in_reply_to := some ("B"), «from» := "alice@x.com", «to» := "agent@example.com",
    cc := none, bcc := none, subject := "chain",
    body_text := some ("..."), body_html := none,
    headers := some [("References", "A B"), ("In-Reply-To", "B")],
    direction := Direction.inbound, approved := 1, status := none,
    archived := 0, created_at := 6 }

/-- An original message with a message_id and no prior references at all. -/
def exFreshOriginal : Message :=
  { id := "orig2", thread_id := "T21", message_id := some ("M1"),
    in_reply_to := none, «from» := "bob@x.com", «to» := "agent@example.com",
    cc := none, bcc := none, subject := "fresh", body_text := some ("hi"),
    body_html := none, headers := some [], direction := Direction.inbound,
    approved := 1, status := none, archived := 0, created_at := 7 }

/-- A store holding the fresh original, for the reply witness. -/
def exReplyStore : Store :=
  { threads := [{ id := "T21", subject := "fresh", last_message_at := 7,
                  message_count := 1, created_at := 7 }],
    messages := [exFreshOriginal],
    attachments := [], approved_senders := [], blobs := [] }

/-- The first run message after retroactive approval (the exInbound row with
its approved flag flipped), for the retroactive-approval witness. -/
def exC3Msg : Message :=
  { id := "m1", thread_id := "T1", message_id := some ("M1"), in_reply_to := none,
    «from» := "new@x.com", «to» := "agent@example.com", cc := none, bcc := none,
    subject := "Hi", body_text := some ("hello"), body_html := none,
    headers := some [("Subject", "Hi")], direction := Direction.inbound,
    approved := 1, status := none, archived := 0, created_at := 5 }

/-- An attachment input with neither inline content nor a reference. -/
def exSkippable : AttachmentInput :=
  { content := none, filename := "x", attachment_id := none }

/-- The thread of the example run, after its three operations. -/
def exRunThread : Thread :=
  { id := "T1", subject := "Hi", last_message_at := 9, message_count := 3,
    created_at := 5 }

/-- The sender configuration exEnv resolves to. -/
def exSenderCfg : SenderConfig :=
  { fromEmail := "agent@example.com", fromName := "Agent",
    replyTo := "agent@example.com", «from» := "Agent <agent@example.com>" }

/-- An environment with no outbound transport configured at all. -/
def exBadEnv : Env :=
  { EMAIL_PROVIDER := none, EMAIL := false, RESEND_API_KEY := none,
    FROM_EMAIL := "agent@example.com", FROM_NAME := "Agent",
    REPLY_TO_EMAIL := "agent@example.com", RESEND_FROM_EMAIL := none,
    RESEND_FROM_NAME := none, RESEND_REPLY_TO_EMAIL := none }

-- ---------------------------------------------------------------------------
-- Helper lemmas
-- ---------------------------------------------------------------------------

theorem mem_insertByCreatedDesc {a m : Message} {l : List Message} :
    a ∈ insertByCreatedDesc m l ↔ a = m ∨ a ∈ l := by
  induction l with
  | nil => simp [insertByCreatedDesc]
  | cons x xs ih =>
    by_cases h : x.created_at ≤ m.created_at
    · simp [insertByCreatedDesc, h]
    · simp only [insertByCreatedDesc, if_neg h, List.mem_cons, ih]
      tauto

theorem mem_sortByCreatedDesc {a : Message} {l : List Message} :
    a ∈ sortByCreatedDesc l ↔ a ∈ l := by
  induction l with
  | nil => simp [sortByCreatedDesc]
  | cons x xs ih => simp [sortByCreatedDesc, mem_insertByCreatedDesc, ih]

theorem mem_listing {m : Message} {l : List Message} {p : Message → Bool}
    {off lim : Nat} (h : m ∈ (((sortByCreatedDesc (l.filter p)).drop off).take lim)) :
    m ∈ l ∧ p m = true := by
  have h1 : m ∈ sortByCreatedDesc (l.filter p) :=
    List.mem_of_mem_drop (List.mem_of_mem_take h)
  have h2 : m ∈ l.filter p := mem_sortByCreatedDesc.1 h1
  exact ⟨(List.mem_filter.1 h2).1, (List.mem_filter.1 h2).2⟩

theorem storeInboundAttachments_messages (msgId : String) (now : Nat)
    (l : List ParsedAttachment) (st : Store) :
    (storeInboundAttachments msgId now l st).messages = st.messages := by
  induction l generalizing st with
  | nil => rfl
  | cons a rest ih => simp [storeInboundAttachments, ih]

theorem storeInboundAttachments_threads (msgId : String) (now : Nat)
    (l : List ParsedAttachment) (st : Store) :
    (storeInboundAttachments msgId now l st).threads = st.threads := by
  induction l generalizing st with
  | nil => rfl
  | cons a rest ih => simp [storeInboundAttachments, ih]

theorem storeOutboundAttachments_messages (dbId : String) (now : Nat)
    (l : List ResolvedAttachment) (ids : List String) (st : Store) :
    (storeOutboundAttachments dbId now l ids st).messages = st.messages := by
  induction l generalizing ids st with
  | nil => cases ids <;> rfl
  | cons a rest ih =>
    cases ids with
    | nil => rfl
    | cons i is => simp [storeOutboundAttachments, ih]

theorem storeOutboundAttachments_threads (dbId : String) (now : Nat)
    (l : List ResolvedAttachment) (ids : List String) (st : Store) :
    (storeOutboundAttachments dbId now l ids st).threads = st.threads := by
  induction l generalizing ids st with
  | nil => cases ids <;> rfl
  | cons a rest ih =>
    cases ids with
    | nil => rfl
    | cons i is => simp [storeOutboundAttachments, ih]

theorem approved_eq_one_of_listing {m : Message} {l : List Message}
    {p : Message → Bool} {off lim : Nat}
    (hp : ∀ x, p x = true → x.approved == 1)
    (h : m ∈ (((sortByCreatedDesc (l.filter p)).drop off).take lim)) :
    m.approved = 1 := by
  have := hp m (mem_listing h).2
  simpa using this

-- ---------------------------------------------------------------------------
-- Claim theorems
-- ---------------------------------------------------------------------------

/-- C1: every message returned by a read operation over messages — the REST
routes GET /api/messages, GET /api/messages/:id, GET /api/search and
GET /api/attachments/:id, and the MCP tools list_messages, read_message,
search_messages and get_attachment — has approved = 1, and the parent message
of every attachment either endpoint serves has approved = 1. -/
theorem C1_read_paths_require_approval :
    (∀ st limit offset dir sender m,
       m ∈ apiListMessages st limit offset dir sender → m.approved = 1) ∧
    (∀ st id m atts, apiGetMessage st id = some (m, atts) → m.approved = 1) ∧
    (∀ st q limit m, m ∈ apiSearch st q limit → m.approved = 1) ∧
    (∀ st id ct fn content, apiGetAttachment st id = AttachmentDownload.ok ct fn content →
       ∃ att ∈ st.attachments, att.id = id ∧
         ∃ par ∈ st.messages, par.id = att.message_id ∧ par.approved = 1) ∧
    (∀ st limit offset dir sender m,
       m ∈ mcpListMessages st limit offset dir sender → m.approved = 1) ∧
    (∀ st id m atts, mcpReadMessage st id = some (m, atts) → m.approved = 1) ∧
    (∀ st q limit m, m ∈ mcpSearchMessages st q limit → m.approved = 1) ∧
    (∀ st id aid fn ct sz content,
       mcpGetAttachment st id = McpAttachmentResult.ok aid fn ct sz content →
       ∃ att ∈ st.attachments, att.id = id ∧
         ∃ par ∈ st.messages, par.id = att.message_id ∧ par.approved = 1) := by
  refine ⟨?_, ?_, ?_, ?_, ?_, ?_, ?_, ?_⟩
  · intro st limit offset dir sender m h
    refine approved_eq_one_of_listing (fun x hx => ?_) h
    exact (Bool.and_elim_left (Bool.and_elim_left hx))
  · intro st id m atts h
    unfold apiGetMessage at h
    cases hf : st.messages.find? (fun x => x.id == id && x.approved == 1) with
    | none => rw [hf] at h; cases h
    | some x =>
      rw [hf] at h
      have hpred := List.find?_some hf
      cases h
      have := Bool.and_elim_right hpred
      simpa using this
  · intro st q limit m h
    have h' : m ∈ ((sortByCreatedDesc (st.messages.filter
        (fun x => x.approved == 1 && matchesQuery x q))).drop 0).take limit := by
      simpa using h
    refine approved_eq_one_of_listing (fun x hx => ?_) h'
    exact Bool.and_elim_left hx
  · intro st id ct fn content h
    unfold apiGetAttachment at h
    cases hatt : st.attachments.find? (fun a => a.id == id) with
    | none => simp only [hatt] at h; exact AttachmentDownload.noConfusion h
    | some att =>
      simp only [hatt] at h
      cases hmsg : st.messages.find? (fun m => m.id == att.message_id) with
      | none => simp only [hmsg] at h; exact AttachmentDownload.noConfusion h
      | some par =>
        simp only [hmsg] at h
        by_cases happ : par.approved ≠ 1
        · rw [if_pos happ] at h; exact AttachmentDownload.noConfusion h
        · refine ⟨att, List.mem_of_find?_eq_some hatt, ?_, par,
            List.mem_of_find?_eq_some hmsg, ?_, ?_⟩
          · simpa using List.find?_some hatt
          · simpa using List.find?_some hmsg
          · exact Decidable.not_not.1 happ
  · intro st limit offset dir sender m h
    refine approved_eq_one_of_listing (fun x hx => ?_) h
    exact (Bool.and_elim_left (Bool.and_elim_left hx))
  · intro st id m atts h
    unfold mcpReadMessage at h
    cases hf : st.messages.find? (fun x => x.id == id && x.approved == 1) with
    | none => rw [hf] at h; cases h
    | some x =>
      rw [hf] at h
      have hpred := List.find?_some hf
      cases h
      have := Bool.and_elim_right hpred
      simpa using this
  · intro st q limit m h
    have h' : m ∈ ((sortByCreatedDesc (st.messages.filter
        (fun x => x.approved == 1 && matchesQuery x q))).drop 0).take limit := by
      simpa using h
    refine approved_eq_one_of_listing (fun x hx => ?_) h'
    exact Bool.and_elim_left hx
  · intro st id aid fn ct sz content h
    unfold mcpGetAttachment at h
    cases hatt : st.attachments.find? (fun a => a.id == id) with
    | none => simp only [hatt] at h; exact McpAttachmentResult.noConfusion h
    | some att =>
      simp only [hatt] at h
      cases hmsg : st.messages.find? (fun m => m.id == att.message_id) with
      | none => simp only [hmsg] at h; exact McpAttachmentResult.noConfusion h
      | some par =>
        simp only [hmsg] at h
        by_cases happ : par.approved ≠ 1
        · rw [if_pos happ] at h; exact McpAttachmentResult.noConfusion h
        · refine ⟨att, List.mem_of_find?_eq_some hatt, ?_, par,
            List.mem_of_find?_eq_some hmsg, ?_, ?_⟩
          · simpa using List.find?_some hatt
          · simpa using List.find?_some hmsg
          · exact Decidable.not_not.1 happ

/-- Witness for C1 at a concrete store. -/
theorem C1_witness :
    exApprovedMsg ∈ apiListMessages exStore 50 0 none none ∧
    exApprovedMsg.approved = 1 :=
  ⟨by decide,
   C1_read_paths_require_approval.1 exStore 50 0 none none exApprovedMsg (by decide)⟩

/-- C7: a search with includeArchived = false never returns a message with
archived = 1, while with includeArchived = true archived messages may appear
(witnessed by a concrete store). The search subsystem itself is modelled from
the spec, its source not being among the files under src. -/
theorem C7_search_archived_filter :
    (∀ st q limit m, m ∈ searchMessages st q limit false → m.archived ≠ 1) ∧
    (∃ st q limit m, m ∈ searchMessages st q limit true ∧ m.archived = 1) := by
  constructor
  · intro st q limit m h
    have h' : m ∈ ((sortByCreatedDesc (st.messages.filter
        (fun x => x.approved == 1 && (false || x.archived == 0) && matchesQuery x q))).drop 0).take limit := by
      simpa using h
    have hx := (mem_listing h').2
    have harch : (m.archived == 0) = true :=
      Bool.and_elim_right (Bool.and_elim_left hx)
    have : m.archived = 0 := by simpa using harch
    omega
  · exact ⟨exStore, "news", 10, exArchivedMsg, by decide, rfl⟩

/-- Witness for C7 at a concrete store. -/
theorem C7_witness :
    exApprovedMsg ∈ searchMessages exStore "news" 10 false ∧
    exApprovedMsg.archived ≠ 1 :=
  ⟨by decide,
   C7_search_archived_filter.1 exStore "news" 10 exApprovedMsg (by decide)⟩

theorem approveSender_messages_pred_false (email : String) (name : Option String)
    (now : Nat) (st : Store) (m : Message)
    (hm : m ∈ (approveSender email name now st).1.messages) :
    (m.«from» == jsToLower email && m.approved == 0) = false := by
  unfold approveSender at hm
  simp only [List.mem_map] at hm
  rcases hm with ⟨m0, hm0, rfl⟩
  by_cases hx : (m0.«from» == jsToLower email && m0.approved == 0) = true
  · rw [if_pos hx]
    simp
  · rw [if_neg hx]
    exact Bool.eq_false_iff.2 hx

theorem zip_changed_count (norm : String) (l : List Message) :
    ((l.zip (l.map (fun m =>
        if m.«from» == norm && m.approved == 0 then { m with approved := 1 } else m))).filter
      (fun pr => pr.1.approved == 0 && pr.2.approved == 1)).length =
    (l.filter (fun m => m.«from» == norm && m.approved == 0)).length := by
  induction l with
  | nil => rfl
  | cons x xs ih =>
    by_cases hx : (x.«from» == norm && x.approved == 0) = true
    · have h1 : x.«from» = norm := by
        have := Bool.and_elim_left hx
        simpa using this
      have h2 : x.approved = 0 := by
        have := Bool.and_elim_right hx
        simpa using this
      simp [h1, h2]
      simpa using ih
    · have hp : ¬(x.«from» = norm ∧ x.approved = 0) := by simpa using hx
      have hc2 : ¬(x.approved = 0 ∧ x.approved = 1) := by omega
      simp [hp, hc2]
      simpa using ih

theorem filter_email_map_update (norm : String) (name : Option String)
    (l : List ApprovedSender) :
    ((l.map (fun s => if s.email == norm then { s with name := name } else s)).filter
      (fun s => s.email == norm)).length =
    (l.filter (fun s => s.email == norm)).length := by
  induction l with
  | nil => rfl
  | cons x xs ih =>
    by_cases hx : (x.email == norm) = true
    · have h1 : x.email = norm := by simpa using hx
      simp [h1]
      simpa using ih
    · have hp : ¬x.email = norm := by simpa using hx
      simp [hp]
      simpa using ih

theorem approveSender_senders_eq (email : String) (name : Option String) (now : Nat)
    (st : Store) :
    (approveSender email name now st).1.approved_senders =
      (if st.approved_senders.any (fun s => s.email == jsToLower email) then
        st.approved_senders.map (fun s =>
          if s.email == jsToLower email then { s with name := name } else s)
      else
        st.approved_senders ++
          [{ email := jsToLower email, name := name, created_at := now }]) := rfl

theorem approveSender_filter_one (email : String) (name : Option String) (now : Nat)
    (st : Store)
    (h : (st.approved_senders.filter (fun s => s.email == jsToLower email)).length ≤ 1) :
    (((approveSender email name now st).1.approved_senders.filter
        (fun s => s.email == jsToLower email)).length = 1) := by
  rw [approveSender_senders_eq]
  by_cases hany : st.approved_senders.any (fun s => s.email == jsToLower email) = true
  · rw [if_pos hany]
    rw [filter_email_map_update]
    rcases List.any_eq_true.1 hany with ⟨x, hx, hpx⟩
    have hmem : x ∈ st.approved_senders.filter (fun s => s.email == jsToLower email) :=
      List.mem_filter.2 ⟨hx, hpx⟩
    have hpos : 0 < (st.approved_senders.filter (fun s => s.email == jsToLower email)).length :=
      List.length_pos.2 (List.ne_nil_of_mem hmem)
    omega
  · rw [if_neg hany]
    have hanyF : st.approved_senders.any (fun s => s.email == jsToLower email) = false :=
      Bool.eq_false_iff.2 hany
    have hall := List.any_eq_false.1 hanyF
    have hnil : st.approved_senders.filter (fun s => s.email == jsToLower email) = [] :=
      List.filter_eq_nil_iff.2 hall
    rw [List.filter_append, hnil]
    simp

/-- C3: immediately after the approve-sender operation for an address e, no
message row remains whose from equals the lowercased e with approved = 0; the
reported retroactive count equals the number of message rows whose approved
flag the call changed from 0 to 1; and inbound ingestion stores from
lowercased, so the normalized comparison covers every stored message from
that sender. -/
theorem C3_retroactive_approval_exhaustive :
    (∀ email name now st m,
       m ∈ (approveSender email name now st).1.messages →
       m.«from» = jsToLower email → m.approved ≠ 0) ∧
    (∀ email name now st,
       (approveSender email name now st).2 =
         ((st.messages.zip (approveSender email name now st).1.messages).filter
           (fun pr => pr.1.approved == 0 && pr.2.approved == 1)).length) ∧
    (∀ e now st, ∃ m ∈ (handleInboundEmail e now st).messages,
       m.id = e.msgId ∧ m.«from» = jsToLower e.fromAddr) := by
  refine ⟨?_, ?_, ?_⟩
  · intro email name now st m hm hfrom
    have hpred := approveSender_messages_pred_false email name now st m hm
    have hbeq : (m.«from» == jsToLower email) = true := by simpa using hfrom
    rw [hbeq, Bool.true_and] at hpred
    simpa using hpred
  · intro email name now st
    show (st.messages.filter (fun m => m.«from» == jsToLower email && m.approved == 0)).length = _
    rw [show (approveSender email name now st).1.messages =
          st.messages.map (fun m =>
            if m.«from» == jsToLower email && m.approved == 0 then { m with approved := 1 }
            else m) from rfl]
    exact (zip_changed_count (jsToLower email) st.messages).symm
  · intro e now st
    simp only [handleInboundEmail, storeInboundAttachments_messages]
    exact ⟨_, List.mem_append_right _ (List.mem_singleton.2 rfl), rfl, rfl⟩

/-- Witness for C3: the sender of the example run, approved retroactively. -/
theorem C3_witness :
    exC3Msg ∈ (approveSender "New@X.com" none 10 (applyOps exOps Store.empty)).1.messages ∧
    exC3Msg.«from» = jsToLower "New@X.com" ∧ exC3Msg.approved ≠ 0 :=
  ⟨by decide, by decide,
   C3_retroactive_approval_exhaustive.1 "New@X.com" none 10 (applyOps exOps Store.empty)
     exC3Msg (by decide) (by decide)⟩

/-- C8: approving a sender twice in succession with the same email and no
intervening ingestion leaves exactly one approved_senders row for the
lowercased email, and the second call reports a retroactive count of 0. -/
theorem C8_approve_sender_idempotent (email : String) (name name2 : Option String)
    (now now2 : Nat) (st : Store)
    (h : (st.approved_senders.filter (fun s => s.email == jsToLower email)).length ≤ 1) :
    (((approveSender email name2 now2 (approveSender email name now st).1).1.approved_senders.filter
        (fun s => s.email == jsToLower email)).length = 1) ∧
    (approveSender email name2 now2 (approveSender email name now st).1).2 = 0 := by
  have h1 := approveSender_filter_one email name now st h
  constructor
  · exact approveSender_filter_one email name2 now2 _ (by omega)
  · show ((approveSender email name now st).1.messages.filter
        (fun m => m.«from» == jsToLower email && m.approved == 0)).length = 0
    have hnil : (approveSender email name now st).1.messages.filter
        (fun m => m.«from» == jsToLower email && m.approved == 0) = [] := by
      rw [List.filter_eq_nil_iff]
      intro m hm hpm
      have := approveSender_messages_pred_false email name now st m hm
      rw [this] at hpm
      cases hpm
    rw [hnil]
    rfl

/-- Witness for C8 on a concrete store holding the allowlist row already. -/
theorem C8_witness :
    (exStore.approved_senders.filter (fun s => s.email == jsToLower "Friend@X.com")).length ≤ 1 ∧
    (((approveSender "Friend@X.com" (some ("F")) 12
        (approveSender "Friend@X.com" none 11 exStore).1).1.approved_senders.filter
          (fun s => s.email == jsToLower "Friend@X.com")).length = 1) ∧
    (approveSender "Friend@X.com" (some ("F")) 12
        (approveSender "Friend@X.com" none 11 exStore).1).2 = 0 :=
  ⟨by decide,
   (C8_approve_sender_idempotent "Friend@X.com" none (some ("F")) 11 12 exStore (by decide)).1,
   (C8_approve_sender_idempotent "Friend@X.com" none (some ("F")) 11 12 exStore (by decide)).2⟩

theorem getSenderConfig_error {env : Env} {c : String}
    (h : getProvider env = Except.error c) : getSenderConfig env = Except.error c := by
  unfold getSenderConfig
  rw [h]

/-- C5: when the provider dispatch fails (the oracle returns an error, or no
provider is configured at all), sendEmail and replyToMessage propagate an
error to the caller and return the store exactly as it was — no thread,
message or attachment row and no blob is persisted. -/
theorem C5_transport_failure_nothing_persisted (env : Env) (err : String)
    (p : SendEmailParams) (dbId ftid : String) (attIds : List String)
    (mid body : String) (atts : List AttachmentInput) (rdbId : String)
    (rattIds : List String) (now now2 : Nat) (st : Store) :
    ((sendEmail env (Except.error err) p dbId ftid attIds now st).1 = st ∧
     ∃ e1, (sendEmail env (Except.error err) p dbId ftid attIds now st).2 = Except.error e1) ∧
    ((replyToMessage env (Except.error err) mid body atts rdbId rattIds now2 st).1 = st ∧
     ∃ e2, (replyToMessage env (Except.error err) mid body atts rdbId rattIds now2 st).2 = Except.error e2) ∧
    (∀ d cfg, getProvider env = Except.error cfg →
       ((sendEmail env d p dbId ftid attIds now st).1 = st ∧
        ∃ e3, (sendEmail env d p dbId ftid attIds now st).2 = Except.error e3) ∧
       ((replyToMessage env d mid body atts rdbId rattIds now2 st).1 = st ∧
        ∃ e4, (replyToMessage env d mid body atts rdbId rattIds now2 st).2 = Except.error e4)) := by
  refine ⟨?_, ?_, ?_⟩
  · cases hra : resolveAttachments st p.attachments with
    | error e => simp [sendEmail, hra]
    | ok resolved =>
      cases hcfg : getSenderConfig env with
      | error e => simp [sendEmail, hra, hcfg]
      | ok sender => simp [sendEmail, hra, hcfg]
  · cases hfind : st.messages.find? (fun m => m.id == mid) with
    | none => simp [replyToMessage, hfind]
    | some original =>
      cases hra : resolveAttachments st atts with
      | error e => simp [replyToMessage, hfind, hra]
      | ok resolved =>
        cases hcfg : getSenderConfig env with
        | error e => simp [replyToMessage, hfind, hra, hcfg]
        | ok sender => simp [replyToMessage, hfind, hra, hcfg]
  · intro d cfg hcfg0
    have hcfg := getSenderConfig_error hcfg0
    constructor
    · cases hra : resolveAttachments st p.attachments with
      | error e => simp [sendEmail, hra]
      | ok resolved => simp [sendEmail, hra, hcfg]
    · cases hfind : st.messages.find? (fun m => m.id == mid) with
      | none => simp [replyToMessage, hfind]
      | some original =>
        cases hra : resolveAttachments st atts with
        | error e => simp [replyToMessage, hfind, hra]
        | ok resolved => simp [replyToMessage, hfind, hra, hcfg]

/-- Witness for C5: a failing dispatch and a missing provider on concrete
inputs leave the example store untouched. -/
theorem C5_witness :
    getProvider exBadEnv = Except.error ("No email provider configured. Set EMAIL_PROVIDER or provide an EMAIL binding / RESEND_API_KEY.") ∧
    (sendEmail exEnv (Except.error ("boom")) exSendParams "d1" "T9" [] 8 exStore).1 = exStore ∧
    (sendEmail exBadEnv (Except.ok ("pm")) exSendParams "d1" "T9" [] 8 exStore).1 = exStore :=
  ⟨rfl,
   (C5_transport_failure_nothing_persisted exEnv "boom" exSendParams "d1" "T9" [] "m10" "b" [] "d2" [] 8 9 exStore).1.1,
   ((C5_transport_failure_nothing_persisted exBadEnv "boom" exSendParams "d1" "T9" [] "m10" "b" [] "d2" [] 8 9 exStore).2.2
      (Except.ok ("pm"))
      ("No email provider configured. Set EMAIL_PROVIDER or provide an EMAIL binding / RESEND_API_KEY.")
      rfl).1.1⟩

/-- C9: for a stored but unapproved message id, the reply route answers the
same Not found response as for a missing id, independently of the provider
oracle, and leaves the store unchanged: the approval gate covers the reply
write-path. -/
theorem C9_reply_gate_unapproved (env : Env) (dispatch dispatch2 : Except String String)
    (id body : String) (atts : List AttachmentInput) (dbId : String)
    (attIds : List String) (now : Nat) (st : Store) (m : Message)
    (hfind : st.messages.find? (fun x => x.id == id) = some m)
    (happ : m.approved ≠ 1) :
    apiReplyRoute env dispatch id body atts dbId attIds now st = (st, ApiReplyResponse.notFound) ∧
    (∀ badId, st.messages.find? (fun x => x.id == badId) = none →
       apiReplyRoute env dispatch2 badId body atts dbId attIds now st = (st, ApiReplyResponse.notFound)) := by
  constructor
  · unfold apiReplyRoute
    simp only [hfind]
    rw [if_pos happ]
  · intro badId hnone
    unfold apiReplyRoute
    simp only [hnone]

/-- Witness for C9: the pending example message cannot be replied to. -/
theorem C9_witness :
    exStore.messages.find? (fun x => x.id == ("m11" : String)) = some exPendingMsg ∧
    apiReplyRoute exEnv (Except.ok ("pm")) "m11" "b" [] "d1" [] 10 exStore =
      (exStore, ApiReplyResponse.notFound) :=
  ⟨by decide,
   (C9_reply_gate_unapproved exEnv (Except.ok ("pm")) (Except.ok ("pm")) "m11" "b" [] "d1" [] 10
      exStore exPendingMsg (by decide) (by decide)).1⟩

theorem sendHeaders_ignores_attachments (p : SendEmailParams) (l : List AttachmentInput) :
    sendHeaders { p with attachments := l } = sendHeaders p := rfl

theorem sendMessageRow_ignores_attachments (sender : SenderConfig) (p : SendEmailParams)
    (l : List AttachmentInput) (dbId threadId pmid : String) (now : Nat) :
    sendMessageRow sender { p with attachments := l } dbId threadId pmid now =
      sendMessageRow sender p dbId threadId pmid now := rfl

theorem resolveAttachments_skip (st : Store) (pre post : List AttachmentInput)
    (e : AttachmentInput) (h1 : strTruthy e.attachment_id = false)
    (h2 : strTruthy e.content = false) :
    resolveAttachments st (pre ++ e :: post) = resolveAttachments st (pre ++ post) := by
  induction pre with
  | nil => simp [resolveAttachments, h1, h2]
  | cons a pre ih => simp only [List.cons_append, resolveAttachments, List.append_eq, ih]

theorem resolveAttachments_error_char (st : Store) (atts : List AttachmentInput) :
    ∀ msg, resolveAttachments st atts = Except.error msg →
      ∃ a ∈ atts, ∃ aid, a.attachment_id = some aid ∧ aid ≠ "" ∧
        (st.attachments.find? (fun x => x.id == aid) = none ∨
         ∃ meta, st.attachments.find? (fun x => x.id == aid) = some meta ∧
           blobGet st meta.r2_key = none) := by
  induction atts with
  | nil =>
    intro msg h
    simp [resolveAttachments] at h
  | cons a rest ih =>
    intro msg h
    by_cases hid : strTruthy a.attachment_id = true
    · have haid : ∃ aidv, a.attachment_id = some aidv ∧ aidv ≠ "" := by
        cases ha : a.attachment_id with
        | none => rw [ha] at hid; simp [strTruthy] at hid
        | some v =>
          refine ⟨v, rfl, ?_⟩
          rw [ha] at hid
          simpa [strTruthy] using hid
      rcases haid with ⟨aidv, haev, hne⟩
      have hgetD : a.attachment_id.getD ("") = aidv := by rw [haev]; rfl
      unfold resolveAttachments at h
      rw [if_pos hid, hgetD] at h
      cases hfind : st.attachments.find? (fun x => x.id == aidv) with
      | none => exact ⟨a, List.mem_cons_self a rest, aidv, haev, hne, Or.inl hfind⟩
      | some meta =>
        simp only [hfind] at h
        cases hblob : blobGet st meta.r2_key with
        | none =>
          exact ⟨a, List.mem_cons_self a rest, aidv, haev, hne, Or.inr ⟨meta, hfind, hblob⟩⟩
        | some content =>
          simp only [hblob] at h
          cases hrec : resolveAttachments st rest with
          | error e2 =>
            rcases ih e2 hrec with ⟨b, hb, hrest⟩
            exact ⟨b, List.mem_cons_of_mem a hb, hrest⟩
          | ok tl =>
            simp only [hrec] at h
            exact Except.noConfusion h
    · unfold resolveAttachments at h
      rw [if_neg hid] at h
      by_cases hct : strTruthy a.content = true
      · rw [if_pos hct] at h
        cases hrec : resolveAttachments st rest with
        | error e2 =>
          rcases ih e2 hrec with ⟨b, hb, hrest⟩
          exact ⟨b, List.mem_cons_of_mem a hb, hrest⟩
        | ok tl =>
          simp only [hrec] at h
          exact Except.noConfusion h
      · rw [if_neg hct] at h
        rcases ih msg h with ⟨b, hb, hrest⟩
        exact ⟨b, List.mem_cons_of_mem a hb, hrest⟩

/-- C10: an attachment input with neither a truthy inline content payload nor
a truthy attachment_id is silently skipped — resolution, and the whole send,
behave exactly as if the entry were absent, so no attachment row or blob is
created for it and no error is raised; attachment resolution errors arise
only from an entry whose attachment_id has no metadata row or whose
referenced blob is missing. -/
theorem C10_attachment_skip_and_errors (st : Store) (pre post : List AttachmentInput)
    (e : AttachmentInput) (h1 : strTruthy e.attachment_id = false)
    (h2 : strTruthy e.content = false) :
    resolveAttachments st (pre ++ e :: post) = resolveAttachments st (pre ++ post) ∧
    (∀ (env : Env) (dispatch : Except String String) (p : SendEmailParams)
       (dbId ftid : String) (attIds : List String) (now : Nat),
       sendEmail env dispatch { p with attachments := pre ++ e :: post } dbId ftid attIds now st =
         sendEmail env dispatch { p with attachments := pre ++ post } dbId ftid attIds now st) ∧
    (∀ atts msg, resolveAttachments st atts = Except.error msg →
       ∃ a ∈ atts, ∃ aid, a.attachment_id = some aid ∧ aid ≠ "" ∧
         (st.attachments.find? (fun x => x.id == aid) = none ∨
          ∃ meta, st.attachments.find? (fun x => x.id == aid) = some meta ∧
            blobGet st meta.r2_key = none)) := by
  refine ⟨resolveAttachments_skip st pre post e h1 h2, ?_, ?_⟩
  · intro env dispatch p dbId ftid attIds now
    simp only [sendEmail, sendHeaders_ignores_attachments,
      sendMessageRow_ignores_attachments]
    rw [resolveAttachments_skip st pre post e h1 h2]
  · exact fun atts msg h => resolveAttachments_error_char st atts msg h

/-- Witness for C10 with a concrete skippable entry. -/
theorem C10_witness :
    strTruthy exSkippable.attachment_id = false ∧
    strTruthy exSkippable.content = false ∧
    resolveAttachments exStore ([] ++ exSkippable :: []) = resolveAttachments exStore ([] ++ []) :=
  ⟨by decide, by decide,
   (C10_attachment_skip_and_errors exStore [] [] exSkippable (by decide) (by decide)).1⟩

/-- C4 counterexample: for the concrete stored original exReplyOriginal
(message_id M1, in_reply_to B, its own References header being the chain
A B), the reply derives its References from the original in_reply_to, giving
B M1, not from the original References chain extended with M1, which would be
A B M1 — so the claim as stated is false at this input, even though the
In-Reply-To part holds there. -/
theorem C4_references_counterexample :
    (replyThreadingHeaders exReplyOriginal).1 = exReplyOriginal.message_id ∧
    (replyThreadingHeaders exReplyOriginal).2 ≠ specReplyReferences exReplyOriginal := by
  exact ⟨rfl, by decide⟩

/-- C4 amended: replyToMessage sets In-Reply-To to the original message_id
(when present) and References to the original in_reply_to extended with the
original message_id — not the original's full References chain; in
particular, replying to a message whose message_id is M1 with no in_reply_to
(hence no prior References) produces In-Reply-To = M1 and References = M1,
and the reply row is persisted into the original's thread carrying those
headers. -/
theorem C4_reply_threading_amended (env : Env) (origId body dbId : String)
    (attIds : List String) (now : Nat) (st : Store) (original : Message)
    (pmid : String) (sender : SenderConfig)
    (hfind : st.messages.find? (fun m => m.id == origId) = some original)
    (hcfg : getSenderConfig env = Except.ok sender) :
    ((replyThreadingHeaders original).1 = original.message_id) ∧
    (∀ mid0, original.message_id = some mid0 → mid0 ≠ "" →
       ((original.in_reply_to = none →
          (replyThreadingHeaders original).2 = some mid0 ∧
          replyHeadersList original = [("In-Reply-To", mid0), ("References", mid0)]) ∧
        (∀ irt, original.in_reply_to = some irt → irt ≠ "" →
          (replyThreadingHeaders original).2 = some (irt ++ " " ++ mid0)))) ∧
    (∃ msg ∈ (replyToMessage env (Except.ok pmid) origId body [] dbId attIds now st).1.messages,
       msg.id = dbId ∧ msg.thread_id = original.thread_id ∧
       msg.in_reply_to = original.message_id ∧
       msg.headers = (if (replyHeadersList original).isEmpty then none
                      else some (replyHeadersList original))) := by
  refine ⟨rfl, ?_, ?_⟩
  · intro mid0 hmid hne
    constructor
    · intro hirt
      constructor
      · simp [replyThreadingHeaders, hmid, hirt, strTruthy, hne]
      · simp [replyHeadersList, replyThreadingHeaders, hmid, hirt, strTruthy, hne]
    · intro irt hirt hirtne
      simp [replyThreadingHeaders, hmid, hirt, strTruthy, hne, hirtne]
  · simp only [replyToMessage, hfind, resolveAttachments, hcfg,
      storeOutboundAttachments_messages]
    exact ⟨_, List.mem_append_right _ (List.mem_singleton.2 rfl), rfl, rfl, rfl, rfl⟩

/-- Witness for C4 on the no-prior-References original. -/
theorem C4_witness :
    exReplyStore.messages.find? (fun m => m.id == ("orig2" : String)) = some exFreshOriginal ∧
    ((replyThreadingHeaders exFreshOriginal).2 = some ("M1") ∧
     replyHeadersList exFreshOriginal = [("In-Reply-To", "M1"), ("References", "M1")]) :=
  ⟨by decide,
   ((C4_reply_threading_amended exEnv "orig2" "b" "d9" [] 11 exReplyStore exFreshOriginal
       "pm9" exSenderCfg (by decide) rfl).2.1 "M1" rfl (by decide)).1 rfl⟩

theorem refs_walk_eq (f : String → Option String) (refs : RefsField) :
    (if refs.truthy then refs.tokens.findSome? f else none) =
      (codeRefsList refs).findSome? f := by
  cases refs with
  | absent => simp [RefsField.truthy, RefsField.tokens, codeRefsList]
  | str s =>
    by_cases hs : s = ""
    · subst hs
      simp [RefsField.truthy, RefsField.tokens, codeRefsList]
    · simp [RefsField.truthy, RefsField.tokens, codeRefsList, hs]
  | nonString => simp [RefsField.truthy, RefsField.tokens, codeRefsList]

theorem resolveThreadId_eq_spec (st : Store) (irt : Option String) (refs : RefsField) :
    resolveThreadId st irt refs =
      specResolveThread st (normInReplyTo irt) (codeRefsList refs) := by
  have hwalk := refs_walk_eq
    (fun ref => (st.messages.find? (fun m => m.message_id == some ref)).map
      (fun m => m.thread_id)) refs
  cases irt with
  | none =>
    simp only [resolveThreadId, specResolveThread, normInReplyTo, strTruthy]
    simpa using hwalk
  | some r =>
    by_cases hr : r = ""
    · subst hr
      simp only [resolveThreadId, specResolveThread, normInReplyTo, strTruthy]
      simpa using hwalk
    · have hts : strTruthy (some r) = true := by simpa [strTruthy] using hr
      simp only [resolveThreadId, specResolveThread, normInReplyTo, hts, if_pos, hr,
        if_neg, ite_false, ite_true]
      cases hf : st.messages.find? (fun m => m.message_id == some r) with
      | none =>
        simp only [hf, Option.map_none']
        simpa using hwalk
      | some m =>
        simp only [hf, Option.map_some']

/-- C6: the inbound thread resolution equals the spec algorithm — In-Reply-To
first (an empty header counting as absent), then the references entries in
order, a missing, empty or malformed references value degrading to the empty
list — and on no match handleInboundEmail creates a new thread with
message_count 1, last_message_at now and the subject of the new message,
while on a match it advances the existing thread row to last_message_at =
now with message_count incremented by exactly one, inserting the message
into that thread. -/
theorem C6_threading_resolution :
    (∀ st irt refs, resolveThreadId st irt refs =
        specResolveThread st (normInReplyTo irt) (codeRefsList refs)) ∧
    (∀ (e : InboundEmail) (now : Nat) (st : Store),
       resolveThreadId st e.inReplyTo e.references = none →
       (∃ t ∈ (handleInboundEmail e now st).threads,
          t.id = e.newThreadId ∧ t.message_count = 1 ∧ t.last_message_at = now ∧
          t.subject = e.subject.getD ("(no subject)")) ∧
       (∃ m ∈ (handleInboundEmail e now st).messages,
          m.id = e.msgId ∧ m.thread_id = e.newThreadId ∧
          m.subject = e.subject.getD ("(no subject)"))) ∧
    (∀ (e : InboundEmail) (now : Nat) (st : Store) (tid : String) (t : Thread),
       resolveThreadId st e.inReplyTo e.references = some tid →
       t ∈ st.threads → t.id = tid →
       ({ t with last_message_at := now, message_count := t.message_count + 1 } : Thread) ∈
         (handleInboundEmail e now st).threads ∧
       (∃ m ∈ (handleInboundEmail e now st).messages,
          m.id = e.msgId ∧ m.thread_id = tid)) := by
  refine ⟨resolveThreadId_eq_spec, ?_, ?_⟩
  · intro e now st hres
    simp only [handleInboundEmail, hres, storeInboundAttachments_threads,
      storeInboundAttachments_messages, Option.getD_none]
    constructor
    · exact ⟨_, List.mem_append_right _ (List.mem_singleton.2 rfl), rfl, rfl, rfl, rfl⟩
    · exact ⟨_, List.mem_append_right _ (List.mem_singleton.2 rfl), rfl, rfl, rfl⟩
  · intro e now st tid t hres htmem htid
    simp only [handleInboundEmail, hres, storeInboundAttachments_threads,
      storeInboundAttachments_messages, Option.getD_some]
    constructor
    · have hbeq : (t.id == tid) = true := by simpa using htid
      have hfn : (fun x => if x.id == tid then
          { x with last_message_at := now, message_count := x.message_count + 1 }
          else x) t =
          { t with last_message_at := now, message_count := t.message_count + 1 } := by
        simp [hbeq]
      unfold bumpThread
      rw [← hfn]
      exact List.mem_map_of_mem _ htmem
    · exact ⟨_, List.mem_append_right _ (List.mem_singleton.2 rfl), rfl, rfl⟩

theorem thread_eq_of_id_eq {l : List Thread} (hnd : (l.map (fun t => t.id)).Nodup)
    {a b : Thread} (ha : a ∈ l) (hb : b ∈ l) (hid : a.id = b.id) : a = b :=
  List.inj_on_of_nodup_map hnd ha hb hid

theorem bumpThread_map_id (tid : String) (now : Nat) (l : List Thread) :
    (bumpThread tid now l).map (fun t => t.id) = l.map (fun t => t.id) := by
  unfold bumpThread
  rw [List.map_map]
  apply List.map_congr_left
  intro t ht
  by_cases h : (t.id == tid) = true <;> simp [h, Function.comp]

theorem mem_bumpThread {l : List Thread} {t' : Thread} {tid : String} {now : Nat} :
    t' ∈ bumpThread tid now l ↔
      ∃ t ∈ l, t' = (if (t.id == tid) = true then
        { t with last_message_at := now, message_count := t.message_count + 1 }
        else t) := by
  unfold bumpThread
  simp only [List.mem_map]
  constructor
  · rintro ⟨t, ht, rfl⟩
    exact ⟨t, ht, rfl⟩
  · rintro ⟨t, ht, rfl⟩
    exact ⟨t, ht, rfl⟩

theorem StoreInv_keep (st st' : Store) (b now : Nat)
    (ht : st'.threads = st.threads) (hm : st'.messages = st.messages)
    (hInv : StoreInv st b) (hb : b ≤ now) :
    StoreInv st' now ∧ StepMono st st' := by
  obtain ⟨hc, hl, hn⟩ := hInv
  refine ⟨⟨?_, ?_, ?_⟩, ?_⟩
  · intro t htm
    rw [ht] at htm
    rw [hm]
    exact hc t htm
  · intro t htm
    rw [ht] at htm
    exact le_trans (hl t htm) hb
  · unfold TidNodup
    rw [ht]
    exact hn
  · intro t htm t' htm' hid
    rw [ht] at htm'
    rw [thread_eq_of_id_eq hn htm htm' hid]

theorem StoreInv_bump (st st' : Store) (b now : Nat) (tid : String) (msg : Message)
    (ht : st'.threads = bumpThread tid now st.threads)
    (hm : st'.messages = st.messages ++ [msg])
    (hInv : StoreInv st b) (hb : b ≤ now) (hmsg : msg.thread_id = tid) :
    StoreInv st' now ∧ StepMono st st' := by
  obtain ⟨hc, hl, hn⟩ := hInv
  refine ⟨⟨?_, ?_, ?_⟩, ?_⟩
  · intro t' htm'
    rw [ht] at htm'
    rcases mem_bumpThread.1 htm' with ⟨t, htmem, rfl⟩
    rw [hm, List.filter_append, List.length_append]
    by_cases hbid : (t.id == tid) = true
    · have hid : t.id = tid := by simpa using hbid
      rw [if_pos hbid]
      have hpmsg : (msg.thread_id == t.id) = true := by simp [hmsg, hid]
      have := hc t htmem
      simp [hpmsg, this]
    · rw [if_neg hbid]
      have hid : t.id ≠ tid := by simpa using hbid
      have hpmsg : (msg.thread_id == t.id) = false := by
        rw [hmsg]
        simp only [beq_eq_false_iff_ne, ne_eq]
        exact fun hh => hid hh.symm
      have := hc t htmem
      simp [hpmsg, this]
  · intro t' htm'
    rw [ht] at htm'
    rcases mem_bumpThread.1 htm' with ⟨t, htmem, rfl⟩
    by_cases hbid : (t.id == tid) = true
    · rw [if_pos hbid]
    · rw [if_neg hbid]
      exact le_trans (hl t htmem) hb
  · unfold TidNodup
    rw [ht, bumpThread_map_id]
    exact hn
  · intro t htmem t' htm' hid
    rw [ht] at htm'
    rcases mem_bumpThread.1 htm' with ⟨s, hsmem, rfl⟩
    by_cases hbid : (s.id == tid) = true
    · rw [if_pos hbid] at hid ⊢
      exact le_trans (hl t htmem) hb
    · rw [if_neg hbid] at hid ⊢
      rw [thread_eq_of_id_eq hn htmem hsmem hid]

theorem StoreInv_newthread (st st' : Store) (b now : Nat) (ntid subj : String)
    (msg : Message)
    (ht : st'.threads = st.threads ++
      [{ id := ntid, subject := subj, last_message_at := now, message_count := 1,
         created_at := now }])
    (hm : st'.messages = st.messages ++ [msg])
    (hInv : StoreInv st b) (hb : b ≤ now) (hmsg : msg.thread_id = ntid)
    (hft : ∀ t ∈ st.threads, t.id ≠ ntid)
    (hfm : ∀ m ∈ st.messages, m.thread_id ≠ ntid) :
    StoreInv st' now ∧ StepMono st st' := by
  obtain ⟨hc, hl, hn⟩ := hInv
  refine ⟨⟨?_, ?_, ?_⟩, ?_⟩
  · intro t' htm'
    rw [ht] at htm'
    rcases List.mem_append.1 htm' with hin | hnew
    · rw [hm, List.filter_append, List.length_append]
      have hpmsg : (msg.thread_id == t'.id) = false := by
        rw [hmsg]
        simp only [beq_eq_false_iff_ne, ne_eq]
        exact fun hh => (hft t' hin) hh.symm
      have := hc t' hin
      simp [hpmsg, this]
    · rw [List.mem_singleton.1 hnew, hm, List.filter_append, List.length_append]
      have hnil : st.messages.filter
          (fun m => m.thread_id == ntid) = [] := by
        rw [List.filter_eq_nil_iff]
        intro m hm2
        simpa using hfm m hm2
      simp [hnil, hmsg]
  · intro t' htm'
    rw [ht] at htm'
    rcases List.mem_append.1 htm' with hin | hnew
    · exact le_trans (hl t' hin) hb
    · rw [List.mem_singleton.1 hnew]
  · unfold TidNodup
    rw [ht, List.map_append]
    refine List.nodup_append.2 ⟨hn, List.nodup_singleton _, ?_⟩
    intro a ha hb2
    rcases List.mem_map.1 ha with ⟨t, htmem, rfl⟩
    have : t.id = ntid := by simpa using hb2
    exact hft t htmem this
  · intro t htmem t' htm' hid
    rw [ht] at htm'
    rcases List.mem_append.1 htm' with hin | hnew
    · rw [thread_eq_of_id_eq hn htmem hin hid]
    · exfalso
      apply hft t htmem
      rw [hid, List.mem_singleton.1 hnew]

theorem applyOp_shape (op : Op) (st : Store) :
    ((applyOp op st).threads = st.threads ∧ (applyOp op st).messages = st.messages) ∨
    (∃ tid msg, msg.thread_id = tid ∧
       (applyOp op st).threads = bumpThread tid op.time st.threads ∧
       (applyOp op st).messages = st.messages ++ [msg]) ∨
    (∃ ntid subj msg, msg.thread_id = ntid ∧
       (applyOp op st).threads = st.threads ++
         [{ id := ntid, subject := subj, last_message_at := op.time,
            message_count := 1, created_at := op.time }] ∧
       (applyOp op st).messages = st.messages ++ [msg] ∧
       (freshFor op st = true →
         (∀ t ∈ st.threads, t.id ≠ ntid) ∧ (∀ m ∈ st.messages, m.thread_id ≠ ntid))) := by
  cases op with
  | inboundOp e now =>
    cases hres : resolveThreadId st e.inReplyTo e.references with
    | some tid =>
      refine Or.inr (Or.inl ⟨tid,
        inboundMessageRow e now tid
          (if st.approved_senders.any (fun s => s.email == jsToLower e.fromAddr) then 1 else 0),
        rfl, ?_, ?_⟩)
      · simp only [applyOp, handleInboundEmail, hres, storeInboundAttachments_threads,
          Op.time]
      · simp only [applyOp, handleInboundEmail, hres, storeInboundAttachments_messages,
          Option.getD_some]
    | none =>
      refine Or.inr (Or.inr ⟨e.newThreadId, e.subject.getD ("(no subject)"),
        inboundMessageRow e now e.newThreadId
          (if st.approved_senders.any (fun s => s.email == jsToLower e.fromAddr) then 1 else 0),
        rfl, ?_, ?_, ?_⟩)
      · simp only [applyOp, handleInboundEmail, hres, storeInboundAttachments_threads,
          Op.time]
      · simp only [applyOp, handleInboundEmail, hres, storeInboundAttachments_messages,
          Option.getD_none]
      · intro hf
        simp only [freshFor, Bool.and_eq_true, Bool.not_eq_true'] at hf
        constructor
        · intro t htmem
          have := List.any_eq_false.1 hf.1 t htmem
          simpa using this
        · intro m hmmem
          have := List.any_eq_false.1 hf.2 m hmmem
          simpa using this
  | sendOp env dispatch p dbId ftid attIds now =>
    cases hra : resolveAttachments st p.attachments with
    | error e =>
      exact Or.inl (by simp [applyOp, sendEmail, hra])
    | ok resolved =>
      cases hcfg : getSenderConfig env with
      | error e =>
        exact Or.inl (by simp [applyOp, sendEmail, hra, hcfg])
      | ok sender =>
        cases dispatch with
        | error e =>
          exact Or.inl (by simp [applyOp, sendEmail, hra, hcfg])
        | ok pmid =>
          cases hti : p.threadId with
          | some tid =>
            refine Or.inr (Or.inl ⟨tid,
              sendMessageRow sender p dbId tid pmid now, rfl, ?_, ?_⟩)
            · simp only [applyOp, sendEmail, hra, hcfg, hti,
                storeOutboundAttachments_threads, Op.time]
            · simp only [applyOp, sendEmail, hra, hcfg, hti,
                storeOutboundAttachments_messages, Option.getD_some]
          | none =>
            refine Or.inr (Or.inr ⟨ftid, p.subject,
              sendMessageRow sender p dbId ftid pmid now, rfl, ?_, ?_, ?_⟩)
            · simp only [applyOp, sendEmail, hra, hcfg, hti,
                storeOutboundAttachments_threads, Op.time]
            · simp only [applyOp, sendEmail, hra, hcfg, hti,
                storeOutboundAttachments_messages, Option.getD_none]
            · intro hf
              simp only [freshFor, hti, Bool.and_eq_true, Bool.not_eq_true'] at hf
              constructor
              · intro t htmem
                have := List.any_eq_false.1 hf.1 t htmem
                simpa using this
              · intro m hmmem
                have := List.any_eq_false.1 hf.2 m hmmem
                simpa using this
  | replyOp env dispatch messageId body atts dbId attIds now =>
    cases hfind : st.messages.find? (fun m => m.id == messageId) with
    | none => exact Or.inl (by simp [applyOp, replyToMessage, hfind])
    | some original =>
      cases hra : resolveAttachments st atts with
      | error e =>
        exact Or.inl (by simp [applyOp, replyToMessage, hfind, hra])
      | ok resolved =>
        cases hcfg : getSenderConfig env with
        | error e =>
          exact Or.inl (by simp [applyOp, replyToMessage, hfind, hra, hcfg])
        | ok sender =>
          cases dispatch with
          | error e =>
            exact Or.inl (by simp [applyOp, replyToMessage, hfind, hra, hcfg])
          | ok pmid =>
            refine Or.inr (Or.inl ⟨original.thread_id,
              replyMessageRow sender original dbId pmid body now, rfl, ?_, ?_⟩)
            · simp only [applyOp, replyToMessage, hfind, hra, hcfg,
                storeOutboundAttachments_threads, Op.time]
            · simp only [applyOp, replyToMessage, hfind, hra, hcfg,
                storeOutboundAttachments_messages]

theorem step_inv (op : Op) (st : Store) (b : Nat) (hInv : StoreInv st b)
    (hb : b ≤ op.time) (hf : freshFor op st = true) :
    StoreInv (applyOp op st) op.time ∧ StepMono st (applyOp op st) := by
  rcases applyOp_shape op st with ⟨ht, hm⟩ | ⟨tid, msg, hmsg, ht, hm⟩ |
    ⟨ntid, subj, msg, hmsg, ht, hm, hfr⟩
  · exact StoreInv_keep st (applyOp op st) b op.time ht hm hInv hb
  · exact StoreInv_bump st (applyOp op st) b op.time tid msg ht hm hInv hb hmsg
  · exact StoreInv_newthread st (applyOp op st) b op.time ntid subj msg ht hm hInv hb
      hmsg (hfr hf).1 (hfr hf).2

theorem head?_states (st : Store) (ops : List Op) :
    (states st ops).head? = some st := by
  cases ops <;> rfl

theorem run_inv : ∀ (ops : List Op) (st : Store) (b : Nat), StoreInv st b →
    validRun b st ops = true →
    StoreInv (applyOps ops st) (endTime b ops) ∧ List.Chain' StepMono (states st ops) := by
  intro ops
  induction ops with
  | nil =>
    intro st b hInv hv
    exact ⟨hInv, List.chain'_singleton st⟩
  | cons op rest ih =>
    intro st b hInv hv
    simp only [validRun, Bool.and_eq_true, decide_eq_true_eq] at hv
    obtain ⟨⟨hb, hf⟩, hrest⟩ := hv
    have hstep := step_inv op st b hInv hb hf
    have htail := ih (applyOp op st) op.time hstep.1 hrest
    refine ⟨htail.1, ?_⟩
    show List.Chain' StepMono (st :: states (applyOp op st) rest)
    refine List.chain'_cons'.2 ⟨?_, htail.2⟩
    intro y hy
    rw [head?_states] at hy
    cases hy
    exact hstep.2

/-- C2: starting from the empty store, after any valid run of inbound
ingestions, sends and replies (fresh UUIDs, non-decreasing clock; failed
dispatches allowed), every thread row counts exactly the message rows
referencing it, and along every step of the run no surviving thread ever sees
its last_message_at decrease. -/
theorem C2_thread_count_invariant (ops : List Op)
    (h : validRun 0 Store.empty ops = true) :
    (∀ t ∈ (applyOps ops Store.empty).threads,
       t.message_count =
         ((applyOps ops Store.empty).messages.filter
           (fun m => m.thread_id == t.id)).length) ∧
    List.Chain' StepMono (states Store.empty ops) := by
  have hInv0 : StoreInv Store.empty 0 :=
    ⟨fun t ht => absurd ht (List.not_mem_nil t),
     fun t ht => absurd ht (List.not_mem_nil t),
     List.nodup_nil⟩
  have hrun := run_inv ops Store.empty 0 hInv0 h
  exact ⟨hrun.1.1, hrun.2⟩

/-- Witness for C2 on the three-operation example run. -/
theorem C2_witness :
    validRun 0 Store.empty exOps = true ∧
    exRunThread ∈ (applyOps exOps Store.empty).threads ∧
    exRunThread.message_count =
      ((applyOps exOps Store.empty).messages.filter
        (fun m => m.thread_id == exRunThread.id)).length :=
  ⟨by decide, by decide,
   (C2_thread_count_invariant exOps (by decide)).1 exRunThread (by decide)⟩

/-- Witness for C6: the first example email creates its new thread. -/
theorem C6_witness :
    resolveThreadId Store.empty exInbound.inReplyTo exInbound.references = none ∧
    ((∃ t ∈ (handleInboundEmail exInbound 5 Store.empty).threads,
        t.id = exInbound.newThreadId ∧ t.message_count = 1 ∧ t.last_message_at = 5 ∧
        t.subject = exInbound.subject.getD ("(no subject)")) ∧
     (∃ m ∈ (handleInboundEmail exInbound 5 Store.empty).messages,
        m.id = exInbound.msgId ∧ m.thread_id = exInbound.newThreadId ∧
        m.subject = exInbound.subject.getD ("(no subject)"))) :=
  ⟨rfl, C6_threading_resolution.2.1 exInbound 5 Store.empty rfl⟩

end Clawpost
